import Mathlib

/-!
Verification of the Edulife voice pipeline.

Shallow embedding of the voice-related client code of the Edulife
repository:

* the quiz modal component (`QuizModal`): `calculateSimilarity`,
  `processVoiceCommand`, `handleNext`, `handlePrevious`, `handleSubmit`,
  `handleAnswerChange`;
* the voice-chat hook (`useVoiceChat.js`): the turn-taking machine made of
  the recognition callbacks (`onstart` / `onend`), `pauseListening`,
  `resumeListening` and `speak` (with its text sanitization), modelled as a
  labelled transition system over an explicit state record, one atomic
  transition per JavaScript event-handler run (JS run-to-completion);
* the silence segmenter inside `recognition.onresult` (the 1200 ms
  debounce timer over the accumulated transcript);
* the streaming consumer in `ChatInterface.handleVoiceInput` (the
  newline-delimited JSON read loop and its catch block).

Numeric similarity scores are IEEE doubles in the source; they are
embedded as exact fractions (numerator / positive denominator) compared by
cross-multiplication, which agrees with the source on every comparison
exercised here.  JavaScript strings are embedded as Lean `String`s
(ASCII-faithful: `toLowerCase`, `trim`, `split`, `includes`, `substring`
are re-implemented below on char lists).
-/

namespace Edulife

/-- ASCII part of the JavaScript whitespace class used by `trim` and
regex `\s`. -/
def jsWs (c : Char) : Bool :=
  c == ' ' || c == '\t' || c == '\n' || c == '\r' || c == '\x0b' || c == '\x0c'

/-- `String.prototype.trim` on char lists. -/
def trimL (l : List Char) : List Char :=
  ((l.dropWhile (fun c => jsWs c)).reverse.dropWhile (fun c => jsWs c)).reverse

/-- `String.prototype.trim`. -/
def trimJs (s : String) : String :=
  (trimL s.toList).asString

/-- `String.prototype.toLowerCase` (ASCII). -/
def lowerStr (s : String) : String :=
  (s.toList.map Char.toLower).asString

/-- The punctuation class removed by `replace(/[.,!?;:]/g, '')`. -/
def isPunct (c : Char) : Bool :=
  c == '.' || c == ',' || c == '!' || c == '?' || c == ';' || c == ':'

/-- `replace(/[.,!?;:]/g, '')`. -/
def noPunct (s : String) : String :=
  (s.toList.filter (fun c => !(isPunct c))).asString

/-- The transcript normalization at the top of `processVoiceCommand`:
`transcript.toLowerCase().replace(/[.,!?;:]/g, '').trim()`. -/
def normCmd (s : String) : String :=
  trimJs (noPunct (lowerStr s))

/-- `String.prototype.split` with a one-character separator
(JavaScript semantics: keeps empty pieces, `"".split(c) = [""]`). -/
def splitChar (sep : Char) : List Char → List (List Char)
  | [] => [[]]
  | c :: cs =>
    let r := splitChar sep cs
    if c == sep then [] :: r
    else
      match r with
      | h :: t => (c :: h) :: t
      | [] => [[c]]

/-- `lower.split(' ')`. -/
def splitSpaces (s : String) : List String :=
  (splitChar ' ' s.toList).map List.asString

/-- Does the pattern occur at the head of the list? -/
def leadsWith : List Char → List Char → Bool
  | [], _ => true
  | _ :: _, [] => false
  | p :: ps, c :: cs => p == c && leadsWith ps cs

/-- Substring occurrence on char lists. -/
def hasSub (needle : List Char) : List Char → Bool
  | [] => needle.isEmpty
  | c :: cs => leadsWith needle (c :: cs) || hasSub needle cs

/-- `haystack.includes(needle)`. -/
def strHas (haystack needle : String) : Bool :=
  hasSub needle.toList haystack.toList

/-!
## `calculateSimilarity` (QuizModal)

The source computes a Levenshtein distance with a single in-place `costs`
row.  `levStep` is the functional rendering of one inner `j`-loop pass:
`newValue = costs[j-1]` when the characters agree, otherwise
`min(min(costs[j-1], lastValue), costs[j]) + 1`, where `lastValue` is the
value just produced for column `j-1`.
-/

/-- One row update of the distance table: `c` is the current character of
the longer string, the second argument the remaining characters of the
shorter string, the third the tail of the previous row starting at column
`j-1`, the last argument `lastValue`. -/
def levStep (c : Char) : List Char → List Nat → Nat → List Nat
  | d :: ds, p0 :: p1 :: ps, lastValue =>
    let nv := if c == d then p0 else Nat.min (Nat.min p0 lastValue) p1 + 1
    nv :: levStep c ds (p1 :: ps) nv
  | _, _, _ => []

/-- Iterate `levStep` over the longer string; row `i` starts with value
`i` (the `lastValue = i` initialization of the source). -/
def levRows (shorter : List Char) : List Char → List Nat → Nat → List Nat
  | [], prev, _ => prev
  | c :: cs, prev, i =>
    levRows shorter cs ((i + 1) :: levStep c shorter prev (i + 1)) (i + 1)

/-- The Levenshtein distance as computed by the source's `costs` loop
(first argument the longer string, second the shorter). -/
def levDist (longer shorter : List Char) : Nat :=
  (levRows shorter longer (List.range (shorter.length + 1)) 0).getLastD 0

/-- An exact similarity score: `num / den` with `den` positive; the
source stores these as IEEE doubles. -/
structure Score where
  num : Nat
  den : Nat
deriving DecidableEq, Repr

/-- `a < b` on scores, by cross-multiplication. -/
def scoreLt (a b : Score) : Bool :=
  a.num * b.den < b.num * a.den

/-- `score > 0.6` of the source. -/
def aboveThreshold (a : Score) : Bool :=
  3 * a.den < a.num * 5

/-- `calculateSimilarity(s1, s2)`:
`(longerLength - editDistance) / longerLength`, and `1.0` when both
strings are empty. -/
def calculateSimilarity (s1 s2 : String) : Score :=
  let longer := if s2.length < s1.length then s1 else s2
  let shorter := if s2.length < s1.length then s2 else s1
  if longer.length = 0 then { num := 1, den := 1 }
  else { num := longer.length - levDist longer.toList shorter.toList
         den := longer.length }

/-!
## `processVoiceCommand` (QuizModal)
-/

inductive QType where
  | mc | tf | short
deriving DecidableEq, Repr

structure Question where
  qtype : QType
  question : String
  options : List String
deriving DecidableEq, Repr

/-- The action a finalized transcript resolves to. -/
inductive VoiceCmd where
  | navNext
  | navPrev
  | submitQuiz
  | repeatQ
  | selectAnswer (a : String)
  | typed (t : String)
  | unrecognized
deriving DecidableEq, Repr

/-- `question.options[i]?.[0]`: the first character of the `i`-th option,
if both exist. -/
def optHead (opts : List String) (i : Nat) : Option Char :=
  (opts.get? i).bind (fun o => o.toList.head?)

/-- The direct option-letter chain: `'option a'`, bare `'a'`, or `'a'` as
a standalone word, then `b`, `c`, `d` (an `else if` chain in the
source: a hit stops the chain even when the option is missing). -/
def directLetter (lower : String) (words : List String) (opts : List String) :
    Option Char :=
  if lower == "option a" || lower == "a" || words.contains ("a") then optHead opts 0
  else if lower == "option b" || lower == "b" || words.contains ("b") then optHead opts 1
  else if lower == "option c" || lower == "c" || words.contains ("c") then optHead opts 2
  else if lower == "option d" || lower == "d" || words.contains ("d") then optHead opts 3
  else none

/-- Running best of the fuzzy loop: `bestScore` starts at `0`,
`bestMatch` at `null`. -/
structure Best where
  score : Score
  mtch : Option Char
deriving DecidableEq, Repr

/-- `opt.substring(3).toLowerCase().replace(/[.,!?;:]/g, '').trim()`. -/
def optionText (opt : String) : String :=
  trimJs (noPunct (lowerStr (opt.toList.drop 3).asString))

/-- The containment condition of the fuzzy loop:
`lower.includes(optionText) && optionText.length > 2`. -/
def containsOpt (lower opt : String) : Bool :=
  strHas lower (optionText opt) && decide (2 < (optionText opt).length)

/-- One iteration of the fuzzy loop: first the strict
`score > bestScore` update, then the containment override (it forces
`bestScore = 1.0, bestMatch = opt[0]`). -/
def stepOption (lower : String) (b : Best) (opt : String) : Best :=
  let sc := calculateSimilarity lower (optionText opt)
  let b1 := if scoreLt b.score sc then { score := sc, mtch := opt.toList.head? } else b
  if containsOpt lower opt then
    { score := { num := 1, den := 1 }, mtch := opt.toList.head? }
  else b1

/-- The fuzzy loop over all options. -/
def fuzzyBest (lower : String) (opts : List String) : Best :=
  opts.foldl (stepOption lower) { score := { num := 0, den := 1 }, mtch := none }

/-- `if (bestScore > 0.6) detectedAnswer = bestMatch`. -/
def fuzzyAnswer (lower : String) (opts : List String) : Option Char :=
  let b := fuzzyBest lower opts
  if aboveThreshold b.score then b.mtch else none

/-- `processVoiceCommand(transcript)` for a fixed current question:
navigation and control phrases first, then type-directed answer
detection. -/
def processVoiceCommand (q : Question) (transcript : String) : VoiceCmd :=
  let lower := normCmd transcript
  if lower == "next" || strHas lower ("next question") || strHas lower ("go forward") then
    .navNext
  else if lower == "previous" || lower == "back" || strHas lower ("go back") then
    .navPrev
  else if lower == "submit" || strHas lower ("submit quiz") || strHas lower ("finish")
      || strHas lower ("done") then
    .submitQuiz
  else if strHas lower ("repeat") || strHas lower ("read again") || lower == "read" then
    .repeatQ
  else
    match q.qtype with
    | .mc =>
      let words := splitSpaces lower
      let det : Option Char :=
        match directLetter lower words q.options with
        | some c => some c
        | none => fuzzyAnswer lower q.options
      match det with
      | some c => .selectAnswer (String.mk [c])
      | none => .unrecognized
    | .tf =>
      if strHas lower ("true") || strHas lower ("yes") then .selectAnswer ("True")
      else if strHas lower ("false") || strHas lower ("no") then .selectAnswer ("False")
      else .unrecognized
    | .short => .typed transcript

/-!
## Quiz navigation / submission state (QuizModal)
-/

structure QuizState where
  answers : List String
  current : Nat
deriving DecidableEq, Repr

/-- `handleNext`: advance only when not on the last question. -/
def handleNext (numQ : Nat) (s : QuizState) : QuizState :=
  if s.current < numQ - 1 then { s with current := s.current + 1 } else s

/-- `handlePrevious`. -/
def handlePrevious (s : QuizState) : QuizState :=
  if 0 < s.current then { s with current := s.current - 1 } else s

/-- JavaScript `Array.prototype.findIndex` (first index satisfying the
test). -/
def findIdxJs (p : String → Bool) : List String → Option Nat
  | [] => none
  | a :: l => if p a then some 0 else (findIdxJs p l).map (· + 1)

/-- `handleSubmit`: `findIndex(a => !a.trim())`; on a hit, jump to the
first unanswered question and do not call `onSubmit`; otherwise call
`onSubmit(answers)` (the second component is the payload of that call). -/
def handleSubmit (s : QuizState) : QuizState × Option (List String) :=
  match findIdxJs (fun a => trimJs a == "") s.answers with
  | some i => ({ s with current := i }, none)
  | none => (s, some s.answers)

/-- A default question, only used to totalize the lookup
`questions[currentQuestion]`. -/
def dfltQ : Question := { qtype := .short, question := "", options := [] }

/-- Dispatch of one finalized transcript on the quiz state (the effect of
`processVoiceCommand` on `currentQuestion` / `answers`; the `onSubmit`
payload, when the command submits, is the second component). -/
def applyVoice (qs : List Question) (s : QuizState) (t : String) :
    QuizState × Option (List String) :=
  let q := qs.getD s.current dfltQ
  match processVoiceCommand q t with
  | .navNext => (handleNext qs.length s, none)
  | .navPrev => (handlePrevious s, none)
  | .submitQuiz => handleSubmit s
  | .repeatQ => (s, none)
  | .selectAnswer a => ({ s with answers := s.answers.set s.current a }, none)
  | .typed t2 => ({ s with answers := s.answers.set s.current t2 }, none)
  | .unrecognized => (s, none)

/-!
## `speak` sanitization (useVoiceChat.js)

The source applies, in order:
1. `replace(/<sup>(.*?)<\/sup>/gi, ' raised to the power of $1 ')`
2. `replace(/<sub>(.*?)<\/sub>/gi, ' base $1 ')`
3. `replace(/!\[([^\]]*)\]\([^)]+\)/g, '')`
4. `replace(/https?:\/\/\S+/g, '')`
5. `replace(/<[^>]*>/g, ' ')`
6. `replace(/\s+/g, ' ').trim()`

Each is embedded as a left-to-right scanner; the tag scanners take a fuel
argument (any fuel `≥ length + 1` is exact, since every step consumes at
least one input character).
-/

/-- Case-insensitive literal pattern at the head; returns the rest. -/
def dropPatCI : List Char → List Char → Option (List Char)
  | [], l => some l
  | _ :: _, [] => none
  | p :: ps, c :: cs => if p.toLower == c.toLower then dropPatCI ps cs else none

/-- Case-sensitive literal pattern at the head; returns the rest. -/
def dropPat : List Char → List Char → Option (List Char)
  | [], l => some l
  | _ :: _, [] => none
  | p :: ps, c :: cs => if p == c then dropPat ps cs else none

/-- The lazy `(.*?)` body up to the closing tag (a JS dot does not match
a line break). -/
def grabBody (closeP : List Char) : List Char → Option (List Char × List Char)
  | [] => none
  | c :: cs =>
    match dropPatCI closeP (c :: cs) with
    | some rest => some ([], rest)
    | none =>
      if c == '\n' || c == '\r' then none
      else
        match grabBody closeP cs with
        | some (b, r) => some (c :: b, r)
        | none => none

/-- Global, case-insensitive replacement of `open(.*?)close` by
`pre ++ body ++ post`. -/
def replTag (openP closeP pre post : List Char) : Nat → List Char → List Char
  | 0, l => l
  | _ + 1, [] => []
  | fuel + 1, c :: cs =>
    match dropPatCI openP (c :: cs) with
    | some afterOpen =>
      match grabBody closeP afterOpen with
      | some (body, rest) => pre ++ body ++ post ++ replTag openP closeP pre post fuel rest
      | none => c :: replTag openP closeP pre post fuel cs
    | none => c :: replTag openP closeP pre post fuel cs

/-- Global removal of markdown images `![alt](url)`
(`alt` may be empty, `url` must be non-empty). -/
def removeImages : Nat → List Char → List Char
  | 0, l => l
  | _ + 1, [] => []
  | fuel + 1, c :: cs =>
    if c == '!' then
      match cs with
      | '[' :: cs1 =>
        match cs1.dropWhile (fun d => !(d == ']')) with
        | ']' :: '(' :: cs2 =>
          let url := cs2.takeWhile (fun d => !(d == ')'))
          match cs2.dropWhile (fun d => !(d == ')')) with
          | ')' :: rest =>
            if url.isEmpty then c :: removeImages fuel cs
            else removeImages fuel rest
          | _ => c :: removeImages fuel cs
        | _ => c :: removeImages fuel cs
      | _ => c :: removeImages fuel cs
    else c :: removeImages fuel cs

/-- Global removal of `https?://\S+`. -/
def removeUrls : Nat → List Char → List Char
  | 0, l => l
  | _ + 1, [] => []
  | fuel + 1, c :: cs =>
    let attempt : Option (List Char) :=
      match dropPat ['h', 't', 't', 'p'] (c :: cs) with
      | none => none
      | some r1 =>
        let r2 := match r1 with
          | 's' :: rs => rs
          | _ => r1
        match dropPat [':', '/', '/'] r2 with
        | none => none
        | some r3 =>
          if (r3.takeWhile (fun d => !(jsWs d))).isEmpty then none
          else some (r3.dropWhile (fun d => !(jsWs d)))
    match attempt with
    | some rest => removeUrls fuel rest
    | none => c :: removeUrls fuel cs

/-- Global replacement of `<[^>]*>` by a space. -/
def stripTags : Nat → List Char → List Char
  | 0, l => l
  | _ + 1, [] => []
  | fuel + 1, c :: cs =>
    if c == '<' then
      match cs.dropWhile (fun d => !(d == '>')) with
      | '>' :: rest => ' ' :: stripTags fuel rest
      | _ => c :: stripTags fuel cs
    else c :: stripTags fuel cs

/-- `replace(/\s+/g, ' ')` (the flag records whether the previous output
character came from a whitespace run). -/
def collW : Bool → List Char → List Char
  | _, [] => []
  | prevWs, c :: cs =>
    if jsWs c then
      if prevWs then collW true cs else ' ' :: collW true cs
    else c :: collW false cs

/-- The full `speak` text sanitization pipeline. -/
def sanitizeForSpeech (text : String) : String :=
  let l0 := text.toList
  let l1 := replTag ("<sup>").toList ("</sup>").toList
    (" raised to the power of ").toList (" ").toList (l0.length + 1) l0
  let l2 := replTag ("<sub>").toList ("</sub>").toList
    (" base ").toList (" ").toList (l1.length + 1) l1
  let l3 := removeImages (l2.length + 1) l2
  let l4 := removeUrls (l3.length + 1) l3
  let l5 := stripTags (l4.length + 1) l4
  (trimL (collW false l5)).asString

/-!
## The turn-taking machine of `useVoiceChat.js`

One atomic transition per JavaScript event-handler run (JS handlers run
to completion, so the state between two statements of one handler is not
observable).  The modelled handlers and calls:

* `enable` — the feature turns on: `initializeVoiceMode` succeeds
  (microphone granted), `recognition.start()` is issued and its
  `onstart` delivered (`setIsListening(true)`).
* `disable` — the `isEnabled` cleanup: `recognition.abort()`,
  `synth.cancel()`, both flags and the speaking ref cleared.
* `speak t` (non-empty `t`) — sets the speaking ref and flag, calls
  `pauseListening` (`recognition.abort()` — capture stops now, the
  `onend` event is delivered later), `synth.cancel()` (pending
  utterances are removed from the queue and will receive an error event
  per the speech-synthesis API), then queues a new utterance whose text
  is `sanitizeForSpeech t`.
* `recEnd` — delivery of a pending `recognition.onend`: restart when not
  speaking, still enabled (the `try`/`catch` around `start()` makes a
  restart attempt on an already-running session a no-op), otherwise
  `setIsListening(false)`.
* `uttEnd i` — `utterance.onend` of the utterance at the head of the
  queue: clears the speaking flag and schedules the 100 ms resume timer.
* `uttErr i` — `utterance.onerror`, delivered either to the playing
  utterance or to a cancelled one: clears the speaking flag and calls
  `resumeListening` immediately.
* `resumeTimer` — a pending 100 ms timer fires: `resumeListening`.

`recActive` is the actual recognition session (the microphone),
`isListening`/`isSpeaking` the React state flags, `speakingRef` the
`isSpeakingRef` used inside the callbacks, `starts` counts successful
`recognition.start()` calls.
-/

structure Utt where
  uid : Nat
  content : String
deriving DecidableEq, Repr

structure VState where
  enabled : Bool
  isListening : Bool
  isSpeaking : Bool
  speakingRef : Bool
  recActive : Bool
  pendingRecEnd : Nat
  queue : List Utt
  cancelled : List Utt
  resumeTimers : Nat
  starts : Nat
  nextId : Nat
deriving DecidableEq, Repr

inductive VEvent where
  | enable
  | disable
  | speak (text : String)
  | recEnd
  | uttEnd (i : Nat)
  | uttErr (i : Nat)
  | resumeTimer
deriving DecidableEq, Repr

/-- `recognition.start()` inside `try`/`catch` followed by `onstart`
(an attempt on an already-running session throws and is swallowed). -/
def tryStart (s : VState) : VState :=
  if s.recActive then s
  else { s with recActive := true, isListening := true, starts := s.starts + 1 }

/-- `resumeListening`: guarded by `!isSpeakingRef.current` and
`isEnabledRef.current`. -/
def resumeL (s : VState) : VState :=
  if !s.speakingRef && s.enabled then tryStart s else s

/-- `recognition.abort()`: capture stops, one `onend` becomes pending. -/
def abortRec (s : VState) : VState :=
  if s.recActive then
    { s with recActive := false, pendingRecEnd := s.pendingRecEnd + 1 }
  else s

/-- `synth.cancel()`: every queued utterance is removed and will receive
its error event. -/
def cancelSynth (s : VState) : VState :=
  { s with queue := [], cancelled := s.cancelled ++ s.queue }

/-- `utterance.onerror` of a cancelled utterance (or a no-op when the id
is unknown). -/
def errCancelled (s : VState) (i : Nat) : VState :=
  if s.cancelled.any (fun u => u.uid == i) then
    resumeL { s with
      cancelled := s.cancelled.filter (fun u => !(u.uid == i)),
      speakingRef := false, isSpeaking := false }
  else s

def vstep (s : VState) : VEvent → VState
  | .enable =>
    if s.enabled then s
    else tryStart { s with enabled := true }
  | .disable =>
    if !s.enabled then s
    else
      let s1 := abortRec { s with enabled := false }
      let s2 := cancelSynth s1
      { s2 with isListening := false, isSpeaking := false, speakingRef := false }
  | .speak t =>
    if t == "" then s
    else
      let s1 := { s with speakingRef := true, isSpeaking := true }
      let s2 := abortRec s1
      let s3 := cancelSynth s2
      { s3 with
        queue := [{ uid := s.nextId, content := sanitizeForSpeech t }],
        nextId := s.nextId + 1 }
  | .recEnd =>
    if s.pendingRecEnd == 0 then s
    else
      let s1 := { s with pendingRecEnd := s.pendingRecEnd - 1 }
      if !s1.speakingRef && s1.enabled then tryStart s1
      else { s1 with isListening := false }
  | .uttEnd i =>
    match s.queue with
    | u :: rest =>
      if u.uid == i then
        { s with queue := rest, speakingRef := false, isSpeaking := false,
                 resumeTimers := s.resumeTimers + 1 }
      else s
    | [] => s
  | .uttErr i =>
    match s.queue with
    | u :: rest =>
      if u.uid == i then
        resumeL { s with queue := rest, speakingRef := false, isSpeaking := false }
      else errCancelled s i
    | [] => errCancelled s i
  | .resumeTimer =>
    if s.resumeTimers == 0 then s
    else resumeL { s with resumeTimers := s.resumeTimers - 1 }

def vinit : VState :=
  { enabled := false, isListening := false, isSpeaking := false,
    speakingRef := false, recActive := false, pendingRecEnd := 0,
    queue := [], cancelled := [], resumeTimers := 0, starts := 0, nextId := 0 }

def vrun (evs : List VEvent) : VState :=
  evs.foldl vstep vinit

/-!
## The silence segmenter inside `recognition.onresult`

State: `currentTranscript` (the utterance buffer) and whether the 1200 ms
`silenceTimer` is armed.  Every result event clears the old timer and
re-arms it exactly when the buffer trims non-empty; the timer callback
emits `currentTranscript.trim()` as a final utterance and clears the
buffer.  Result events carry a list of fragments, each tagged final or
interim.
-/

structure Frag where
  text : String
  fin : Bool
deriving DecidableEq, Repr

structure SegState where
  buffer : String
  armed : Bool
deriving DecidableEq, Repr

/-- `finalTranscript`: every final fragment contributes `text + ' '`. -/
def finalsText (frags : List Frag) : String :=
  frags.foldl (fun acc f => if f.fin then acc ++ f.text ++ (" ") else acc) ("")

/-- `interimTranscript`: interim fragments concatenated. -/
def interimText (frags : List Frag) : String :=
  frags.foldl (fun acc f => if f.fin then acc else acc ++ f.text) ("")

/-- One `onresult` run: extend the buffer with the final fragments, emit
the preview (`displayTranscript.trim()`) when non-empty, clear and
conditionally re-arm the timer. -/
def onResult (s : SegState) (frags : List Frag) : SegState × Option String :=
  let buf := s.buffer ++ finalsText frags
  let disp := trimJs (buf ++ interimText frags)
  ({ buffer := buf, armed := !(trimJs buf == "") },
   if disp == "" then none else some disp)

/-- The `silenceTimer` callback: emit the trimmed buffer as a final
utterance and clear the buffer (only armed timers fire). -/
def onQuiet (s : SegState) : SegState × Option String :=
  if s.armed then ({ buffer := "", armed := false }, some (trimJs s.buffer))
  else (s, none)

/-- Drive the segmenter over timed result events; `gap` is the time in
milliseconds since the previous event, and an armed timer fires when the
gap reaches 1200 ms.  Returns the final state and the emitted final
utterances (previews are discarded here). -/
def segRun : SegState → List (Nat × List Frag) → SegState × List String
  | s, [] => (s, [])
  | s, (gap, frags) :: rest =>
    let fire := if 1200 ≤ gap then onQuiet s else (s, none)
    let s2 := (onResult fire.1 frags).1
    let r := segRun s2 rest
    (r.1, (fire.2.toList) ++ r.2)

/-- A whole listening episode: start with an empty buffer, process the
events, then let the trailing quiet period elapse. -/
def segEpisode (events : List (Nat × List Frag)) : SegState × List String :=
  let r := segRun { buffer := "", armed := false } events
  ((onQuiet r.1).1, r.2 ++ (onQuiet r.1).2.toList)

/-- The concatenation of all final fragments of all events, each followed
by the space the source appends. -/
def allFinals (events : List (Nat × List Frag)) : String :=
  events.foldl (fun acc e => acc ++ finalsText e.2) ("")

/-!
## The streaming consumer of `ChatInterface.handleVoiceInput`

The fetch body arrives as a list of text chunks; each chunk is split on
newlines and every non-blank line is parsed as JSON independently (a
parse failure is logged and skipped).  The JSON parser itself is the
platform's; it enters the model as the `parse` parameter.
-/

inductive Role where
  | user
  | assistant
deriving DecidableEq, Repr

structure Msg where
  role : Role
  content : String
  isVoice : Bool
deriving DecidableEq, Repr

/-- One decoded stream line: `session_info`, `response` or `control`
(`control` carries the quiz-trigger truthiness, `schedule_msg` and
`new_badges`). -/
inductive StreamEvent where
  | sessionInfo (sid : Option String)
  | response (content : String)
  | control (quiz : Bool) (sched : Option String) (badges : List String)
deriving DecidableEq, Repr

structure ChatState where
  messages : List Msg
  sessionId : Option String
  spoken : Option String
  aiText : String
  quizTrig : Bool
deriving DecidableEq, Repr

/-- JavaScript truthiness of an optional string field. -/
def sidTruthy : Option String → Bool
  | some s => !(s == "")
  | none => false

/-- The `schedule_msg` merge: append to the last message if it is an
assistant message, otherwise leave the list unchanged. -/
def mergeSched (st : ChatState) (m : String) : ChatState :=
  match st.messages.getLast? with
  | some last =>
    if last.role == Role.assistant then
      { st with messages := st.messages.dropLast
          ++ [{ last with content := last.content ++ m }] }
    else st
  | none => st

/-- Dispatch of one decoded stream event (`currentSessionId` is the value
captured before the read loop). -/
def applyEvent (orig : Option String) (st : ChatState) : StreamEvent → ChatState
  | .sessionInfo sid =>
    if sidTruthy sid && !(sidTruthy orig) then { st with sessionId := sid } else st
  | .response c =>
    { st with
      messages := st.messages ++ [{ role := Role.assistant, content := c, isVoice := true }],
      spoken := some c, aiText := c }
  | .control quiz sched _badges =>
    let st1 := if quiz then { st with quizTrig := true } else st
    match sched with
    | some m => if !(m == "") then mergeSched st1 m else st1
    | none => st1

/-- `if (!line.trim()) continue;` followed by `JSON.parse` in a
`try`/`catch`: blank and unparseable lines alike yield no event. -/
def lineEvent (parse : String → Option StreamEvent) (line : String) :
    Option StreamEvent :=
  if trimJs line == "" then none else parse line

/-- Process one line of the streamed body. -/
def handleLine (parse : String → Option StreamEvent) (orig : Option String)
    (st : ChatState) (line : String) : ChatState :=
  match lineEvent parse line with
  | none => st
  | some ev => applyEvent orig st ev

/-- `chunk.split('\n')`. -/
def splitNl (s : String) : List String :=
  (splitChar '\n' s.toList).map List.asString

/-- All lines of the streamed body, chunk by chunk (the source splits
each decoded chunk on newlines as it arrives; it does not buffer a
partial trailing line across chunks). -/
def linesOf (chunks : List String) : List String :=
  chunks.flatMap splitNl

/-- The read loop: process every line of every chunk in order. -/
def streamLoop (parse : String → Option StreamEvent) (orig : Option String)
    (st : ChatState) (chunks : List String) : ChatState :=
  chunks.foldl (fun s ch => (splitNl ch).foldl (handleLine parse orig) s) st

/-- The effect of the `schedule_msg` merge on the message list alone. -/
def mergeSchedList (ms : List Msg) (m2 : String) : List Msg :=
  match ms.getLast? with
  | some last =>
    if last.role == Role.assistant then
      ms.dropLast ++ [{ last with content := last.content ++ m2 }]
    else ms
  | none => ms

/-- The effect of one processed line on the message list alone (an
observer of `handleLine`, used to reason about the loop). -/
def msgsStep (ms : List Msg) : Option StreamEvent → List Msg
  | some (.response c) => ms ++ [{ role := Role.assistant, content := c, isVoice := true }]
  | some (.control _ (some m2) _) => if !(m2 == "") then mergeSchedList ms m2 else ms
  | _ => ms

/-- The fallback message of the catch block. -/
def errFallback : String := "Sorry, I couldn\'t process that. Please try again!"

/-- The whole voice submission for a final transcript: append the user
message, run the streamed read loop over the chunks, and on a transport
failure (`failed`) run the catch block, which appends and speaks the
fallback only when the last message is not a non-empty assistant
message. -/
def handleVoiceFinal (parse : String → Option StreamEvent) (prev : List Msg)
    (sid : Option String) (transcript : String) (chunks : List String)
    (failed : Bool) : ChatState :=
  let st0 : ChatState :=
    { messages := prev ++ [{ role := Role.user, content := transcript, isVoice := false }],
      sessionId := sid, spoken := none, aiText := "", quizTrig := false }
  let st1 := streamLoop parse sid st0 chunks
  if failed then
    match st1.messages.getLast? with
    | some last =>
      if last.role == Role.assistant && !(last.content.length == 0) then st1
      else
        { st1 with
          messages := st1.messages
            ++ [{ role := Role.assistant, content := errFallback, isVoice := false }],
          spoken := some errFallback }
    | none =>
      { st1 with
        messages := st1.messages
          ++ [{ role := Role.assistant, content := errFallback, isVoice := false }],
        spoken := some errFallback }
  else st1

/-- The `response` contents among a list of decoded line events, in
order. -/
def respOfEvents : List (Option StreamEvent) → List String
  | [] => []
  | some (.response c) :: r => c :: respOfEvents r
  | _ :: r => respOfEvents r

/-- The `response` contents among the processed lines, in order. -/
def respOfLines (parse : String → Option StreamEvent) (lines : List String) :
    List String :=
  respOfEvents (lines.map (lineEvent parse))

/-- The concrete multiple-choice question of the command-matching
scenario. -/
def parisQ : Question :=
  { qtype := .mc
    question := "What is the capital of France?"
    options := ["A) Paris", "B) London", "C) Berlin", "D) Madrid"] }

/-- Two options with identical text, to probe the tie-break rule. -/
def catQ : Question :=
  { qtype := .mc, question := "Which animal?", options := ["A) cat", "B) cat"] }

/-- A tiny concrete line decoder standing in for `JSON.parse` in the
closed witnesses: two known good lines, everything else unparseable. -/
def demoParse : String → Option StreamEvent := fun l =>
  if l == "g1" then some (.response ("Hello"))
  else if l == "g2" then some (.response ("World"))
  else none

/-- A second concrete line decoder whose stream ends with an
empty-content response: a non-empty response, then an empty one. -/
def demoParse2 : String → Option StreamEvent := fun l =>
  if l == "g1" then some (.response ("abc"))
  else if l == "ge" then some (.response (""))
  else none

/-!
# Theorems
-/

set_option maxRecDepth 8000

theorem vrun_append (evs : List VEvent) (e : VEvent) :
    vrun (evs ++ [e]) = vstep (vrun evs) e := by
  simp [vrun, List.foldl_append]

/-- Preservation of the bundled machine invariant: a set speaking flag
means an utterance is in flight, and the synthesis queue never holds more
than one utterance. -/
theorem vstep_inv (s : VState) (e : VEvent)
    (h1 : s.isSpeaking = true → s.queue ≠ [])
    (h2 : s.queue.length ≤ 1) :
    ((vstep s e).isSpeaking = true → (vstep s e).queue ≠ [])
    ∧ (vstep s e).queue.length ≤ 1 := by
  cases e <;>
    simp only [vstep, tryStart, resumeL, abortRec, cancelSynth, errCancelled] <;>
    repeat' split
  all_goals simp_all

/-- The machine invariant holds in every reachable state. -/
theorem vrun_inv (evs : List VEvent) :
    ((vrun evs).isSpeaking = true → (vrun evs).queue ≠ [])
    ∧ (vrun evs).queue.length ≤ 1 := by
  suffices h : ∀ (l : List VEvent) (s : VState),
      (s.isSpeaking = true → s.queue ≠ []) → s.queue.length ≤ 1 →
      ((l.foldl vstep s).isSpeaking = true → (l.foldl vstep s).queue ≠ [])
      ∧ (l.foldl vstep s).queue.length ≤ 1 by
    exact h evs vinit (by simp [vinit]) (by simp [vinit])
  intro l
  induction l with
  | nil => intro s u v; exact ⟨u, v⟩
  | cons e es ih =>
    intro s u v
    have := vstep_inv s e u v
    exact ih (vstep s e) this.1 this.2

/-- Claim C1, counterexample: after `speak` is called while listening,
the `isListening` and `isSpeaking` flags are simultaneously true —
`pauseListening` aborts the recognition session but does not clear
`isListening` (the `setIsListening(false)` there is commented out), and
the recognition `onend` that would clear it is still pending. -/
theorem C1_flags_counterexample :
    (vrun [.enable, .speak ("hello")]).isListening = true
    ∧ (vrun [.enable, .speak ("hello")]).isSpeaking = true := by decide

/-- Claim C1, amended: `speak` always tears the recognition session down
before playback starts (immediately after any `speak` event capture is
inactive), and the two flags can be simultaneously true only while the
spoken utterance is in flight — in every reachable state whose synthesis
queue is empty, `isListening` and `isSpeaking` are never both true. -/
theorem C1_mutual_exclusion_amended :
    (∀ (evs : List VEvent) (t : String), ¬(t = "") →
      (vrun (evs ++ [.speak t])).recActive = false)
    ∧ (∀ evs : List VEvent, (vrun evs).queue = [] →
      ¬((vrun evs).isListening = true ∧ (vrun evs).isSpeaking = true)) := by
  constructor
  · intro evs t ht
    rw [vrun_append]
    have hne : (t == "") = false := by
      simpa using ht
    simp only [vstep, hne, Bool.false_eq_true, if_false, abortRec, cancelSynth]
    split <;> simp_all
  · rintro evs hq ⟨hl, hs⟩
    exact (vrun_inv evs).1 hs hq

/-- Witness for the amended C1, at concrete event sequences. -/
theorem C1_mutual_exclusion_witness :
    (vrun [.speak ("hi")]).recActive = false
    ∧ ¬((vrun [.enable]).isListening = true ∧ (vrun [.enable]).isSpeaking = true) := by
  constructor
  · exact C1_mutual_exclusion_amended.1 [] ("hi") (by decide)
  · exact C1_mutual_exclusion_amended.2 [.enable] (by decide)

/-- The single-utterance happy path: natural end, then the 100 ms resume
timer; capture resumes exactly once, only at the timer, and repeated
terminal or timer events are no-ops. -/
theorem single_end_resume (s : VState) (u : Utt)
    (hq : s.queue = [u]) (he : s.enabled = true) (hr : s.recActive = false)
    (ht : s.resumeTimers = 0) :
    (vstep s (.uttEnd u.uid)).recActive = false
    ∧ (vstep s (.uttEnd u.uid)).isSpeaking = false
    ∧ (vstep (vstep s (.uttEnd u.uid)) .resumeTimer).recActive = true
    ∧ (vstep (vstep s (.uttEnd u.uid)) .resumeTimer).starts = s.starts + 1
    ∧ vstep (vstep (vstep s (.uttEnd u.uid)) .resumeTimer) (.uttEnd u.uid)
        = vstep (vstep s (.uttEnd u.uid)) .resumeTimer
    ∧ vstep (vstep (vstep s (.uttEnd u.uid)) .resumeTimer) .resumeTimer
        = vstep (vstep s (.uttEnd u.uid)) .resumeTimer := by
  simp only [vstep, hq, resumeL, tryStart]
  simp [he, hr, ht]

/-- Claim C3, counterexample: after two rapid `speak` calls, delivering
the cancelled first utterance's error event restarts capture while the
second utterance is still queued and playing — capture is resumed, but
not "after playback ends", because the handler first clears the shared
speaking ref and then calls `resumeListening`, whose guard therefore
passes. -/
theorem C3_rapid_speak_counterexample :
    (vrun [.enable, .speak ("hi"), .speak ("yo"), .uttErr 0]).recActive = true
    ∧ (vrun [.enable, .speak ("hi"), .speak ("yo"), .uttErr 0]).queue
        = [{ uid := 1, content := ("yo") }] := by decide

/-- Claim C3, amended: for a single `speak` whose utterance ends
naturally, the ended signal fires once and capture is resumed exactly
once, at the fixed-delay timer (not before); repeated terminal or timer
deliveries are no-ops.  Under rapid double `speak`, the cancelled first
utterance's handler resumes capture early (while the second is still
playing), and the second utterance's own resume attempt is a swallowed
no-op, so capture is successfully started exactly once overall. -/
theorem C3_turn_recovery_amended :
    (∀ (evs : List VEvent) (u : Utt),
      (vrun evs).queue = [u] → (vrun evs).enabled = true →
      (vrun evs).recActive = false → (vrun evs).resumeTimers = 0 →
      (vstep (vrun evs) (.uttEnd u.uid)).recActive = false
      ∧ (vstep (vrun evs) (.uttEnd u.uid)).isSpeaking = false
      ∧ (vstep (vstep (vrun evs) (.uttEnd u.uid)) .resumeTimer).recActive = true
      ∧ (vstep (vstep (vrun evs) (.uttEnd u.uid)) .resumeTimer).starts
          = (vrun evs).starts + 1
      ∧ vstep (vstep (vstep (vrun evs) (.uttEnd u.uid)) .resumeTimer) (.uttEnd u.uid)
          = vstep (vstep (vrun evs) (.uttEnd u.uid)) .resumeTimer
      ∧ vstep (vstep (vstep (vrun evs) (.uttEnd u.uid)) .resumeTimer) .resumeTimer
          = vstep (vstep (vrun evs) (.uttEnd u.uid)) .resumeTimer)
    ∧ (vrun [.enable, .speak ("a"), .speak ("b"), .uttErr 0, .uttEnd 1,
        .resumeTimer]).starts = 2
    ∧ (vrun [.enable, .speak ("a"), .speak ("b"), .uttErr 0]).recActive = true := by
  refine ⟨?_, by decide, by decide⟩
  intro evs u hq he hr ht
  exact single_end_resume (vrun evs) u hq he hr ht

/-- Witness for the amended C3, at a concrete event sequence. -/
theorem C3_turn_recovery_witness :
    (vstep (vstep (vrun [.enable, .speak ("hi")]) (.uttEnd 0)) .resumeTimer).recActive = true
    ∧ (vstep (vstep (vrun [.enable, .speak ("hi")]) (.uttEnd 0)) .resumeTimer).starts
        = (vrun [.enable, .speak ("hi")]).starts + 1 := by
  have h := C3_turn_recovery_amended.1 [.enable, .speak ("hi")]
    { uid := 0, content := ("hi") } (by decide) (by decide) (by decide) (by decide)
  exact ⟨h.2.2.1, h.2.2.2.1⟩

/-- Claim C9: every non-empty `speak t` queues exactly the utterance
whose text is the sanitization pipeline applied to `t`, every utterance
in flight beforehand is moved to the cancelled set first, and the
synthesis queue never holds more than one utterance in any reachable
state. -/
theorem C9_speak_sanitizes_and_cancels :
    (∀ (evs : List VEvent) (t : String), ¬(t = "") →
      (vrun (evs ++ [.speak t])).queue
        = [{ uid := (vrun evs).nextId, content := sanitizeForSpeech t }]
      ∧ ∀ u ∈ (vrun evs).queue, u ∈ (vrun (evs ++ [.speak t])).cancelled)
    ∧ ∀ evs : List VEvent, (vrun evs).queue.length ≤ 1 := by
  constructor
  · intro evs t ht
    rw [vrun_append]
    have hne : (t == "") = false := by simpa using ht
    constructor
    · simp only [vstep, hne, Bool.false_eq_true, if_false, abortRec, cancelSynth]
    · intro u hu
      simp only [vstep, hne, Bool.false_eq_true, if_false, abortRec, cancelSynth]
      split <;> simp [hu]
  · intro evs
    exact (vrun_inv evs).2

/-- Witness for C9: the pipeline output on a concrete input (superscript
spoken, URL removed, whitespace collapsed). -/
theorem C9_witness :
    (vrun [.enable, .speak ("x<sup>2</sup> go to https://e.com now")]).queue
      = [{ uid := 0, content := ("x raised to the power of 2 go to now") }] := by
  have h := (C9_speak_sanitizes_and_cancels.1 [.enable]
    ("x<sup>2</sup> go to https://e.com now") (by decide)).1
  exact h.trans (by decide)

theorem findIdxJs_none_iff (p : String → Bool) (l : List String) :
    findIdxJs p l = none ↔ ∀ a ∈ l, p a = false := by
  induction l with
  | nil => simp [findIdxJs]
  | cons a l ih =>
    simp only [findIdxJs]
    by_cases h : p a
    · simp [h]
    · simp [h, ih, Option.map_eq_none]

/-- `findIndex` returns the first index satisfying the test. -/
theorem findIdxJs_some (p : String → Bool) :
    ∀ (l : List String) (i : Nat), findIdxJs p l = some i →
      ((∃ a, l.get? i = some a ∧ p a = true)
      ∧ ∀ j a, j < i → l.get? j = some a → p a = false) := by
  intro l
  induction l with
  | nil => intro i h; simp [findIdxJs] at h
  | cons a l ih =>
    intro i h
    simp only [findIdxJs] at h
    by_cases hp : p a
    · rw [if_pos hp] at h
      have h0 : i = 0 := by
        cases h
        rfl
      subst h0
      refine ⟨⟨a, rfl, hp⟩, ?_⟩
      intro j b hj
      omega
    · rw [if_neg hp] at h
      cases hfi : findIdxJs p l with
      | none => rw [hfi] at h; simp at h
      | some k =>
        rw [hfi] at h
        simp at h
        subst h
        obtain ⟨⟨b, hb, hpb⟩, hmin⟩ := ih k hfi
        refine ⟨⟨b, by simpa using hb, hpb⟩, ?_⟩
        intro j c hj hc
        cases j with
        | zero =>
          simp only [List.get?_cons_zero, Option.some_inj] at hc
          subst hc
          simpa using hp
        | succ j2 =>
          exact hmin j2 c (by omega) (by simpa using hc)

/-- Claim C10: `handleSubmit` hands the answers to `onSubmit` exactly
when every answer trims non-empty; otherwise `onSubmit` is not invoked,
the answers are unchanged and the current index becomes the first
unanswered question's index. -/
theorem C10_submit_guard (s : QuizState) :
    ((handleSubmit s).2 = some s.answers ↔ ∀ a ∈ s.answers, ¬(trimJs a = ""))
    ∧ (¬(∀ a ∈ s.answers, ¬(trimJs a = "")) →
      (handleSubmit s).2 = none
      ∧ (handleSubmit s).1.answers = s.answers
      ∧ (∃ a, s.answers.get? (handleSubmit s).1.current = some a ∧ trimJs a = "")
      ∧ ∀ j a, j < (handleSubmit s).1.current → s.answers.get? j = some a →
          ¬(trimJs a = "")) := by
  unfold handleSubmit
  cases hf : findIdxJs (fun a => trimJs a == "") s.answers with
  | none =>
    have hall := (findIdxJs_none_iff _ s.answers).mp hf
    constructor
    · constructor
      · intro _ a ha
        have := hall a ha
        simpa using this
      · intro _
        rfl
    · intro hcon
      exfalso
      apply hcon
      intro a ha
      have := hall a ha
      simpa using this
  | some i =>
    obtain ⟨⟨a, ha, hpa⟩, hmin⟩ := findIdxJs_some _ s.answers i hf
    constructor
    · constructor
      · intro h
        simp at h
      · intro h
        exfalso
        have hm : a ∈ s.answers := List.get?_mem ha
        have := h a hm
        exact this (by simpa using hpa)
    · intro _
      refine ⟨rfl, rfl, ⟨a, ha, by simpa using hpa⟩, ?_⟩
      intro j c hj hc
      have := hmin j c hj hc
      simpa using this

/-- Witness for C10, at a concrete partially-answered quiz. -/
theorem C10_submit_witness :
    (handleSubmit { answers := [("a"), ("")], current := 0 }).2 = none
    ∧ ∃ a, [("a"), ("")].get?
        (handleSubmit { answers := [("a"), ("")], current := 0 }).1.current
        = some a ∧ trimJs a = "" := by
  have h := (C10_submit_guard { answers := [("a"), ("")], current := 0 }).2 (by decide)
  exact ⟨h.1, h.2.2.1⟩

/-- Claim C6: on the Paris question, "I think it's paris" selects A (via
containment), "option b" selects B (direct letter), and
"purple monkey dishwasher" is unrecognized (all similarity scores stay
below the 0.6 threshold). -/
theorem C6_command_matching :
    processVoiceCommand parisQ ("I think it\'s paris") = .selectAnswer ("A")
    ∧ processVoiceCommand parisQ ("option b") = .selectAnswer ("B")
    ∧ processVoiceCommand parisQ ("purple monkey dishwasher") = .unrecognized := by
  decide

/-- Claim C7, counterexample: with two options of identical text, the
first option already reaches the winning score 1.0, yet the second is
selected — the containment override replaces the best match on a tie, so
"the first option reaching the winning score is selected" fails. -/
theorem C7_tie_break_counterexample :
    fuzzyBest ("cat") [("A) cat")]
      = { score := { num := 1, den := 1 }, mtch := some 'A' }
    ∧ fuzzyBest ("cat") [("A) cat"), ("B) cat")]
      = { score := { num := 1, den := 1 }, mtch := some 'B' }
    ∧ processVoiceCommand catQ ("cat") = .selectAnswer ("B") := by decide

/-- Claim C7, amended: in the similarity comparison a later option
replaces the current best only when its score strictly exceeds it (ties
and lower scores leave the best unchanged), but a containment match
(transcript contains the option text, option text longer than two
characters) forcibly overwrites the best even on a tie. -/
theorem C7_tie_break_amended (lower : String) (b : Best) (opt : String) :
    (containsOpt lower opt = false →
      scoreLt b.score (calculateSimilarity lower (optionText opt)) = false →
      stepOption lower b opt = b)
    ∧ (containsOpt lower opt = false →
      scoreLt b.score (calculateSimilarity lower (optionText opt)) = true →
      stepOption lower b opt
        = { score := calculateSimilarity lower (optionText opt)
            mtch := opt.toList.head? })
    ∧ (containsOpt lower opt = true →
      stepOption lower b opt
        = { score := { num := 1, den := 1 }, mtch := opt.toList.head? }) := by
  refine ⟨?_, ?_, ?_⟩
  · intro h1 h2
    simp [stepOption, h1, h2]
  · intro h1 h2
    simp [stepOption, h1, h2]
  · intro h1
    simp [stepOption, h1]

/-- Witness for the amended C7: a tie kept, a strict improvement taken,
and a containment override, each at concrete inputs. -/
theorem C7_tie_break_witness :
    stepOption ("x") { score := { num := 1, den := 1 }, mtch := some 'A' } ("B) x")
      = { score := { num := 1, den := 1 }, mtch := some 'A' }
    ∧ stepOption ("dog") { score := { num := 0, den := 1 }, mtch := none } ("B) do")
      = { score := { num := 2, den := 3 }, mtch := some 'B' }
    ∧ stepOption ("cat") { score := { num := 1, den := 1 }, mtch := some 'A' } ("B) cat")
      = { score := { num := 1, den := 1 }, mtch := some 'B' } := by
  refine ⟨?_, ?_, ?_⟩
  · exact (C7_tie_break_amended ("x") _ ("B) x")).1 (by decide) (by decide)
  · exact ((C7_tie_break_amended ("dog") _ ("B) do")).2.1 (by decide) (by decide)).trans
      (by decide)
  · exact (C7_tie_break_amended ("cat") _ ("B) cat")).2.2 (by decide)

/-- Claim C8, counterexample: the transcript "next please" does not match
the navigation conditions (`lower === 'next'`, `includes('next
question')`, `includes('go forward')`) and, on the Paris question, does
not match any answer either — the state is unchanged instead of
advancing. -/
theorem C8_next_please_counterexample :
    processVoiceCommand parisQ ("next please") = .unrecognized
    ∧ applyVoice [parisQ, parisQ] { answers := [(""), ("")], current := 0 } ("next please")
        = ({ answers := [(""), ("")], current := 0 }, none) := by decide

/-- Claim C8, amended: the exact transcript "next" resolves to forward
navigation for every question; `handleNext` advances the index by exactly
one, clamped at the last question (a no-op on the last question), and
leaves the answers unchanged. -/
theorem C8_navigation_amended (qs : List Question) (s : QuizState) :
    applyVoice qs s ("next") = (handleNext qs.length s, none)
    ∧ (handleNext qs.length s).current
        = (if s.current + 1 < qs.length then s.current + 1 else s.current)
    ∧ (handleNext qs.length s).answers = s.answers := by
  refine ⟨rfl, ?_, ?_⟩
  · unfold handleNext
    split
    · rename_i h
      have h2 : s.current + 1 < qs.length := by omega
      simp [h2]
    · rename_i h
      have h2 : ¬(s.current + 1 < qs.length) := by omega
      simp [h2]
  · unfold handleNext
    split <;> rfl

theorem finalsFold (l : List (Nat × List Frag)) :
    ∀ a : String, l.foldl (fun acc e => acc ++ finalsText e.2) a = a ++ allFinals l := by
  induction l with
  | nil =>
    intro a
    simp [allFinals]
  | cons e l ih =>
    intro a
    simp only [List.foldl_cons, allFinals]
    rw [ih (a ++ finalsText e.2), ih ("" ++ finalsText e.2)]
    simp [String.empty_append, String.append_assoc]

theorem allFinals_cons (e : Nat × List Frag) (l : List (Nat × List Frag)) :
    allFinals (e :: l) = finalsText e.2 ++ allFinals l := by
  have h := finalsFold l ("" ++ finalsText e.2)
  simp only [allFinals, List.foldl_cons]
  rw [h]
  simp [String.empty_append]
  rfl

/-- While every inter-event gap stays below the 1200 ms quiet period, the
timer never fires: no final utterance is emitted and the buffer
accumulates exactly the final fragments. -/
theorem segRun_below (events : List (Nat × List Frag)) :
    ∀ s : SegState, (∀ e ∈ events, e.1 < 1200) →
      s.armed = !(trimJs s.buffer == "") →
      segRun s events
        = ({ buffer := s.buffer ++ allFinals events,
             armed := !(trimJs (s.buffer ++ allFinals events) == "") }, []) := by
  induction events with
  | nil =>
    intro s _ hs
    simp only [segRun, allFinals, List.foldl_nil]
    rw [String.append_empty]
    cases s with
    | mk b arm =>
      simp at hs
      simp [hs]
  | cons e rest ih =>
    intro s hg hs
    obtain ⟨gap, frags⟩ := e
    have hgap : gap < 1200 := by
      have := hg (gap, frags) (by simp)
      simpa using this
    have hfire : ¬(1200 ≤ gap) := by omega
    simp only [segRun, hfire, if_false, onResult]
    rw [ih _ (fun x hx => hg x (by simp [hx])) (by rfl)]
    simp [allFinals_cons, String.append_assoc]

/-- Claim C2, amended: with all inter-arrival gaps below the quiet
period and a trailing quiet period, exactly one final utterance fires —
its content is the trimmed space-joined concatenation of the final
fragments in arrival order (each fragment is suffixed with one space and
the result trimmed) — and the buffer is cleared; nothing fires when the
accumulated final content trims empty (interim fragments never reach the
buffer). -/
theorem C2_debounce_amended (events : List (Nat × List Frag))
    (hg : ∀ e ∈ events, e.1 < 1200) :
    (¬(trimJs (allFinals events) = "") →
      (segEpisode events).2 = [trimJs (allFinals events)]
      ∧ (segEpisode events).1.buffer = "")
    ∧ (trimJs (allFinals events) = "" → (segEpisode events).2 = []) := by
  have h := segRun_below events { buffer := "", armed := false } hg (by rfl)
  simp only [segEpisode, h, String.empty_append]
  constructor
  · intro hne
    have hb : (trimJs (allFinals events) == "") = false := by simpa using hne
    simp [onQuiet, hb]
  · intro he
    have hb : (trimJs (allFinals events) == "") = true := by simpa using he
    simp [onQuiet, hb]

/-- Claim C2, counterexample: two final fragments "ab" and "cd" are
emitted as "ab cd" — the source inserts a space after every final
fragment and trims, so the emission is not the plain concatenation
"abcd" the claim describes. -/
theorem C2_concat_counterexample :
    (segEpisode [(0, [{ text := ("ab"), fin := true }]),
                 (100, [{ text := ("cd"), fin := true }])]).2 = [("ab cd")]
    ∧ ¬(("ab cd") = ("ab") ++ ("cd")) := by decide

/-- Witness for the amended C2: a final+interim mix emits exactly one
utterance; an interim-only episode emits nothing. -/
theorem C2_debounce_witness :
    (segEpisode [(0, [{ text := ("hello"), fin := true }]),
                 (300, [{ text := ("there"), fin := false },
                        { text := ("world"), fin := true }])]).2 = [("hello world")]
    ∧ (segEpisode [(0, [{ text := ("um"), fin := false }])]).2 = [] := by
  constructor
  · have h := (C2_debounce_amended
      [(0, [{ text := ("hello"), fin := true }]),
       (300, [{ text := ("there"), fin := false },
              { text := ("world"), fin := true }])] (by decide)).1 (by decide)
    exact h.1.trans (by decide)
  · exact (C2_debounce_amended [(0, [{ text := ("um"), fin := false }])]
      (by decide)).2 (by decide)

theorem strAppendNe (a b : String) (h : ¬(a = "")) : ¬(a ++ b = "") := by
  intro hc
  apply h
  have hd := congrArg String.data hc
  rw [String.data_append] at hd
  cases a with
  | mk d =>
    cases d with
    | nil => rfl
    | cons x xs => simp at hd

theorem strLenPos (s : String) (h : ¬(s = "")) : 0 < s.length := by
  cases s with
  | mk d =>
    cases d with
    | nil => exact absurd rfl h
    | cons c cs => simp [String.length]

theorem streamLoop_lines (parse : String → Option StreamEvent) (orig : Option String) :
    ∀ (chunks : List String) (st : ChatState),
      streamLoop parse orig st chunks = (linesOf chunks).foldl (handleLine parse orig) st := by
  intro chunks
  induction chunks with
  | nil => intro st; rfl
  | cons ch chunks ih =>
    intro st
    simp only [streamLoop, List.foldl_cons, linesOf, List.flatMap_cons, List.foldl_append]
    exact ih (List.foldl (handleLine parse orig) st (splitNl ch))

theorem mergeSchedList_of_user (ms : List Msg) (m2 : String) (m : Msg)
    (hlast : ms.getLast? = some m) (hrole : m.role = Role.user) :
    mergeSchedList ms m2 = ms := by
  simp only [mergeSchedList, hlast]
  rw [hrole]
  have hb : (Role.user == Role.assistant) = false := by decide
  simp [hb]

/-- One processed line acts on the message list exactly as `msgsStep`
describes. -/
theorem handleLine_messages (parse : String → Option StreamEvent)
    (orig : Option String) (st : ChatState) (l : String) :
    (handleLine parse orig st l).messages = msgsStep st.messages (lineEvent parse l) := by
  cases hev : lineEvent parse l with
  | none => simp [handleLine, hev, msgsStep]
  | some ev =>
    cases ev with
    | sessionInfo sid =>
      simp only [handleLine, hev, applyEvent, msgsStep]
      split <;> rfl
    | response c => simp [handleLine, hev, applyEvent, msgsStep]
    | control q sch bg =>
      have hq : (if q = true then { st with quizTrig := true } else st).messages
          = st.messages := by split <;> rfl
      cases sch with
      | none =>
        simp only [handleLine, hev, applyEvent, msgsStep]
        exact hq
      | some m2 =>
        simp only [handleLine, hev, applyEvent, msgsStep]
        split
        · simp only [mergeSched, mergeSchedList, hq]
          cases hlast : st.messages.getLast? with
          | none => simp [hlast, hq]
          | some m =>
            simp only [hlast]
            split <;> simp [hq]
        · exact hq

theorem runLines_messages (parse : String → Option StreamEvent) (orig : Option String) :
    ∀ (lines : List String) (st : ChatState),
      (lines.foldl (handleLine parse orig) st).messages
        = (lines.map (lineEvent parse)).foldl msgsStep st.messages := by
  intro lines
  induction lines with
  | nil => intro st; rfl
  | cons l ls ih =>
    intro st
    simp only [List.foldl_cons, List.map_cons]
    rw [ih, handleLine_messages]

/-- With no response event among the lines and the user message last, the
loop leaves the message list untouched. -/
theorem msgs_no_resp (evl : List (Option StreamEvent)) :
    ∀ (ms : List Msg) (m : Msg), respOfEvents evl = [] →
      ms.getLast? = some m → m.role = Role.user →
      evl.foldl msgsStep ms = ms := by
  induction evl with
  | nil => intro ms m _ _ _; rfl
  | cons e r ih =>
    intro ms m hresp hlast hrole
    cases e with
    | none =>
      rw [List.foldl_cons]
      exact ih ms m (by simpa [respOfEvents] using hresp) hlast hrole
    | some ev =>
      cases ev with
      | response c => simp [respOfEvents] at hresp
      | sessionInfo sid =>
        rw [List.foldl_cons]
        exact ih ms m (by simpa [respOfEvents] using hresp) hlast hrole
      | control q sch bg =>
        rw [List.foldl_cons]
        cases sch with
        | none => exact ih ms m (by simpa [respOfEvents] using hresp) hlast hrole
        | some m2 =>
          have hstep : msgsStep ms (some (.control q (some m2) bg)) = ms := by
            simp only [msgsStep]
            split
            · exact mergeSchedList_of_user ms m2 m hlast hrole
            · rfl
          rw [hstep]
          exact ih ms m (by simpa [respOfEvents] using hresp) hlast hrole

/-- With no response event among the remaining lines, a non-empty
assistant message stays last (a schedule merge only extends it). -/
theorem msgs_keep_asst (evl : List (Option StreamEvent)) :
    ∀ ms : List Msg, respOfEvents evl = [] →
      (∃ m, ms.getLast? = some m ∧ m.role = Role.assistant ∧ ¬(m.content = "")) →
      ∃ m, (evl.foldl msgsStep ms).getLast? = some m ∧ m.role = Role.assistant
        ∧ ¬(m.content = "") := by
  induction evl with
  | nil => intro ms _ h; exact h
  | cons e r ih =>
    intro ms hresp h
    obtain ⟨m, hlast, hrole, hne⟩ := h
    cases e with
    | none =>
      rw [List.foldl_cons]
      exact ih ms (by simpa [respOfEvents] using hresp) ⟨m, hlast, hrole, hne⟩
    | some ev =>
      cases ev with
      | response c => simp [respOfEvents] at hresp
      | sessionInfo sid =>
        rw [List.foldl_cons]
        exact ih ms (by simpa [respOfEvents] using hresp) ⟨m, hlast, hrole, hne⟩
      | control q sch bg =>
        rw [List.foldl_cons]
        cases sch with
        | none => exact ih ms (by simpa [respOfEvents] using hresp) ⟨m, hlast, hrole, hne⟩
        | some m2 =>
          by_cases hm2 : (m2 == "") = true
          · have hstep : msgsStep ms (some (.control q (some m2) bg)) = ms := by
              simp [msgsStep, hm2]
            rw [hstep]
            exact ih ms (by simpa [respOfEvents] using hresp) ⟨m, hlast, hrole, hne⟩
          · have hbq : (m.role == Role.assistant) = true := by
              rw [hrole]
              decide
            have hstep : msgsStep ms (some (.control q (some m2) bg))
                = ms.dropLast ++ [{ m with content := m.content ++ m2 }] := by
              simp only [msgsStep, mergeSchedList, hlast, hbq]
              simp [hm2]
            rw [hstep]
            refine ih _ (by simpa [respOfEvents] using hresp)
              ⟨_, List.getLast?_concat _, hrole, strAppendNe _ _ hne⟩

/-- If the last response among the lines is non-empty, the loop ends with
a non-empty assistant message last. -/
theorem msgs_last_resp (evl : List (Option StreamEvent)) :
    ∀ (ms : List Msg) (c : String), (respOfEvents evl).getLast? = some c → ¬(c = "") →
      ∃ m, (evl.foldl msgsStep ms).getLast? = some m ∧ m.role = Role.assistant
        ∧ ¬(m.content = "") := by
  induction evl with
  | nil =>
    intro ms c hc _
    simp [respOfEvents] at hc
  | cons e r ih =>
    intro ms c hc hcne
    cases e with
    | none =>
      rw [List.foldl_cons]
      exact ih _ c (by simpa [respOfEvents] using hc) hcne
    | some ev =>
      cases ev with
      | sessionInfo sid =>
        rw [List.foldl_cons]
        exact ih _ c (by simpa [respOfEvents] using hc) hcne
      | control q sch bg =>
        rw [List.foldl_cons]
        exact ih _ c (by simpa [respOfEvents] using hc) hcne
      | response c0 =>
        rw [List.foldl_cons]
        have hr : respOfEvents (some (.response c0) :: r) = c0 :: respOfEvents r := rfl
        rw [hr] at hc
        cases hrr : respOfEvents r with
        | nil =>
          rw [hrr] at hc
          simp at hc
          subst hc
          exact msgs_keep_asst r _ hrr ⟨_, List.getLast?_concat _, rfl, hcne⟩
        | cons c1 cr =>
          rw [hrr, List.getLast?_cons_cons, ← hrr] at hc
          exact ih _ c hc hcne

/-- Claim C4: a malformed line between two valid response lines is
skipped without aborting the loop; both responses are appended to the
message list in order and the second is the one handed to speech. -/
theorem C4_stream_resilience (parse : String → Option StreamEvent)
    (prev : List Msg) (sid : Option String) (t l1 lb l2 a b : String)
    (h1 : lineEvent parse l1 = some (.response a))
    (hb : lineEvent parse lb = none)
    (h2 : lineEvent parse l2 = some (.response b))
    (n1 : splitNl l1 = [l1]) (nb : splitNl lb = [lb]) (n2 : splitNl l2 = [l2]) :
    (handleVoiceFinal parse prev sid t [l1, lb, l2] false).messages
      = prev ++ [{ role := Role.user, content := t, isVoice := false },
                 { role := Role.assistant, content := a, isVoice := true },
                 { role := Role.assistant, content := b, isVoice := true }]
    ∧ (handleVoiceFinal parse prev sid t [l1, lb, l2] false).spoken = some b := by
  simp only [handleVoiceFinal, streamLoop, List.foldl_cons, List.foldl_nil,
    n1, nb, n2, handleLine, h1, hb, h2, applyEvent, Bool.false_eq_true, if_false]
  constructor
  · simp [List.append_assoc]
  · trivial

/-- Witness for C4, with a concrete three-line body whose middle line is
unparseable. -/
theorem C4_witness :
    (handleVoiceFinal demoParse [] none ("hi") [("g1"), ("zz"), ("g2")] false).messages
      = [{ role := Role.user, content := ("hi"), isVoice := false },
         { role := Role.assistant, content := ("Hello"), isVoice := true },
         { role := Role.assistant, content := ("World"), isVoice := true }]
    ∧ (handleVoiceFinal demoParse [] none ("hi") [("g1"), ("zz"), ("g2")] false).spoken
        = some ("World") := by
  have h := C4_stream_resilience demoParse [] none ("hi") ("g1") ("zz") ("g2")
    ("Hello") ("World") (by decide) (by decide) (by decide)
    (by decide) (by decide) (by decide)
  exact ⟨h.1.trans (by decide), h.2⟩

/-- Claim C5, counterexample: a stream delivering response "abc" and
then an empty response, followed by a transport failure.  Partial
response content was already streamed (the user has "abc" in the message
list), yet the failure is not suppressed: the catch block inspects only
the last message, whose content is empty, and appends the fallback — the
failing run differs from the non-failing run. -/
theorem C5_partial_content_counterexample :
    (handleVoiceFinal demoParse2 [] none ("hi") [("g1"), ("ge")] true).messages
      = [{ role := Role.user, content := ("hi"), isVoice := false },
         { role := Role.assistant, content := ("abc"), isVoice := true },
         { role := Role.assistant, content := (""), isVoice := true },
         { role := Role.assistant, content := errFallback, isVoice := false }]
    ∧ ¬(handleVoiceFinal demoParse2 [] none ("hi") [("g1"), ("ge")] true
        = handleVoiceFinal demoParse2 [] none ("hi") [("g1"), ("ge")] false) := by
  decide

/-- Claim C5, amended: a transport failure with no response event
received yields exactly one appended and spoken fallback message.
Suppression is keyed on the last message, not on whether any partial
content was streamed: the failure is suppressed (the outcome equals the
non-failing run) whenever the last received response had non-empty
content, but when the last received response is empty the fallback is
appended even though earlier responses already streamed content. -/
theorem C5_failure_policy_amended (parse : String → Option StreamEvent) (prev : List Msg)
    (sid : Option String) (t : String) (chunks : List String) :
    (respOfLines parse (linesOf chunks) = [] →
      (handleVoiceFinal parse prev sid t chunks true).messages
        = prev ++ [{ role := Role.user, content := t, isVoice := false },
                   { role := Role.assistant, content := errFallback, isVoice := false }]
      ∧ (handleVoiceFinal parse prev sid t chunks true).spoken = some errFallback)
    ∧ (∀ c, (respOfLines parse (linesOf chunks)).getLast? = some c → ¬(c = "") →
      handleVoiceFinal parse prev sid t chunks true
        = handleVoiceFinal parse prev sid t chunks false)
    ∧ (∀ (l1 l2 a : String),
      lineEvent parse l1 = some (.response a) →
      lineEvent parse l2 = some (.response ("")) →
      splitNl l1 = [l1] → splitNl l2 = [l2] →
      (handleVoiceFinal parse prev sid t [l1, l2] true).messages
        = prev ++ [{ role := Role.user, content := t, isVoice := false },
                   { role := Role.assistant, content := a, isVoice := true },
                   { role := Role.assistant, content := (""), isVoice := true },
                   { role := Role.assistant, content := errFallback, isVoice := false }]
      ∧ (handleVoiceFinal parse prev sid t [l1, l2] true).spoken = some errFallback) := by
  refine ⟨?_, ?_, ?_⟩
  · intro hresp
    have hms : (streamLoop parse sid
        { messages := prev ++ [{ role := Role.user, content := t, isVoice := false }],
          sessionId := sid, spoken := none, aiText := "", quizTrig := false } chunks).messages
        = prev ++ [{ role := Role.user, content := t, isVoice := false }] := by
      rw [streamLoop_lines, runLines_messages]
      exact msgs_no_resp _ _ _ hresp (List.getLast?_concat _) rfl
    have hbu : (Role.user == Role.assistant) = false := by decide
    simp only [handleVoiceFinal]
    rw [hms, List.getLast?_concat]
    constructor <;> simp [hbu, hms, List.append_assoc]
  · intro c hc hcne
    have hmain : ∃ m, (streamLoop parse sid
        { messages := prev ++ [{ role := Role.user, content := t, isVoice := false }],
          sessionId := sid, spoken := none, aiText := "", quizTrig := false }
        chunks).messages.getLast? = some m ∧ m.role = Role.assistant
        ∧ ¬(m.content = "") := by
      rw [streamLoop_lines, runLines_messages]
      exact msgs_last_resp _ _ c hc hcne
    obtain ⟨m, hlast, hrole, hne⟩ := hmain
    have hbq : (m.role == Role.assistant) = true := by
      rw [hrole]
      decide
    have hlen : (m.content.length == 0) = false := by
      have hp := strLenPos m.content hne
      simp
      omega
    simp only [handleVoiceFinal]
    rw [hlast]
    simp [hbq, hlen]
  · intro l1 l2 a h1 h2 n1 n2
    simp only [handleVoiceFinal, streamLoop, List.foldl_cons, List.foldl_nil,
      n1, n2, handleLine, h1, h2, applyEvent]
    rw [List.getLast?_concat]
    constructor <;> simp [List.append_assoc]

/-- Witness for the amended C5: the fallback appended with no response
received, the suppressed failure after a non-empty response, and the
non-suppressed failure after an empty trailing response. -/
theorem C5_failure_policy_witness :
    ((handleVoiceFinal demoParse [] none ("hi") [("zz")] true).messages
      = [{ role := Role.user, content := ("hi"), isVoice := false },
         { role := Role.assistant, content := errFallback, isVoice := false }]
      ∧ (handleVoiceFinal demoParse [] none ("hi") [("zz")] true).spoken
          = some errFallback)
    ∧ handleVoiceFinal demoParse [] none ("hi") [("g1")] true
        = handleVoiceFinal demoParse [] none ("hi") [("g1")] false
    ∧ (handleVoiceFinal demoParse2 [] none ("hi") [("g1"), ("ge")] true).spoken
        = some errFallback := by
  refine ⟨?_, ?_, ?_⟩
  · have h := (C5_failure_policy_amended demoParse [] none ("hi") [("zz")]).1 (by decide)
    exact ⟨h.1.trans (by decide), h.2⟩
  · exact (C5_failure_policy_amended demoParse [] none ("hi") [("g1")]).2.1 ("Hello")
      (by decide) (by decide)
  · exact ((C5_failure_policy_amended demoParse2 [] none ("hi")
      [("g1"), ("ge")]).2.2 ("g1") ("ge") ("abc")
      (by decide) (by decide) (by decide) (by decide)).2

end Edulife
